import Mathlib

/-!
Shallow embedding of `core/state_processor.go` from go-ellaism.

The file models the block-level state-transition core: `Process` (the
per-block transaction loop with the EIP-155 replay-protection check),
`ApplyTransaction` (per-transaction receipt construction), and
`AccumulateRewards` (miner and uncle rewards), plus the declared but
never-invoked helper `getBlockEra`.

External collaborators (the message-execution engine `ApplyMessage`, the
state-commitment function `IntermediateRoot`, the address-derivation
primitive `crypto.CreateAddress`, the bloom construction
`types.CreateBloom`, the log store of `state.StateDB`) are modelled as
opaque deterministic function parameters gathered in `Externals`: the Go
code treats them as black boxes, and every theorem below is universally
quantified over them.

Go `*big.Int` values are modelled as `Int`; Go's `big.Int.Div` and
`big.Int.DivMod` implement Euclidean division, which corresponds to
`Int.ediv` / `Int.emod`.
-/

namespace Ellaism

/-- Account addresses (`common.Address`), kept opaque. -/
abbrev Address := Nat

/-- 32-byte hashes (`common.Hash`), kept opaque. -/
abbrev Hash := Nat

/-- A single VM log entry (`vm.Log`), kept opaque: this core only moves
logs around, never inspects them. -/
abbrev Log := Nat

/-- A bloom filter value (`types.Bloom`), kept opaque: produced by the
external `types.CreateBloom`. -/
abbrev Bloom := Nat

/-- An error value returned by the external execution engine
(`ApplyMessage`), kept opaque: `Process` propagates it verbatim. -/
abbrev ExecError := Nat

/-- The header fields this core reads: `Number`, `Coinbase`, `GasLimit`
(`types.Header`; the remaining consensus fields are never touched by
`state_processor.go`). -/
structure Header where
  number : Int
  coinbase : Address
  gasLimit : Int
deriving DecidableEq

/-- The transaction fields this core reads (`types.Transaction`):
`Protected()`, `ChainId()`, `Hash()`, `Nonce()`, `To()` (`none` means
contract creation), and the sender returned by `From()` (signature
recovery is external, so the recovered sender is a field here; the
fields `isProtected` and `recipient` rename Go's `Protected()` and
`To()` because `protected` and `to` are Lean keywords). -/
structure Transaction where
  isProtected : Bool
  chainId : Int
  hash : Hash
  nonce : Nat
  recipient : Option Address
  sender : Address
deriving DecidableEq

/-- A block as consumed by `Process`: header, ordered transactions,
uncle headers, and the block hash `Hash()` (hash computation is
external). -/
structure Block where
  header : Header
  transactions : List Transaction
  uncles : List Header
  hash : Hash
deriving DecidableEq

/-- The slice of `state.StateDB` this core touches: balances
(`AddBalance`), the log-recording context (`StartRecord`), and the
per-transaction log store (`GetLogs`). The execution engine may rewrite
the whole structure. -/
structure StateDB where
  balances : Address → Int
  record : Option (Hash × Hash × Nat)
  logs : Hash → List Log

/-- Modelled from the spec: the Fork Gate backing store (`ChainConfig`
lives outside `src/`). `getFeatureChainId n` returns the required
chain-identifier parameter of the "eip155" rule at block number `n`, or
`none` when the rule is not configured or the `chainID` parameter is
absent (Go: `GetFeature(n, "eip155")` followed by
`feat.GetBigInt("chainID")`); `getChainID` is the chain's configured
identifier as reported by `ChainConfig.GetChainID()`. -/
structure ChainConfig where
  getFeatureChainId : Int → Option Int
  getChainID : Int

/-- Outcome of the external `ApplyMessage(NewEnv(...), tx, gp)`: either
an execution error or the gas consumed, together with the remaining gas
pool and the mutated state (Go mutates `gp` and `statedb` in place). -/
inductive MsgOutcome where
  | failure (e : ExecError) (gp : Int) (statedb : StateDB)
  | success (gas : Int) (gp : Int) (statedb : StateDB)

/-- The external collaborators of `state_processor.go`, as opaque
deterministic functions. `applyMessage` stands for
`ApplyMessage(NewEnv(statedb, config, bc, tx, header), tx, gp)` (the
`BlockChain` context `bc` is absorbed into the oracle);
`intermediateRoot` for `statedb.IntermediateRoot().Bytes()`;
`createAddress` for `crypto.CreateAddress(sender, nonce)`; `createBloom`
for `types.CreateBloom` applied to a receipt holding the given logs. -/
structure Externals where
  applyMessage : ChainConfig → Header → Transaction → Int → StateDB → MsgOutcome
  intermediateRoot : StateDB → List Nat
  createAddress : Address → Nat → Address
  createBloom : List Log → Bloom

/-- A transaction receipt (`types.Receipt`), restricted to the fields
`ApplyTransaction` populates. -/
structure Receipt where
  postState : List Nat
  cumulativeGasUsed : Int
  txHash : Hash
  gasUsed : Int
  contractAddress : Option Address
  logs : List Log
  bloom : Bloom
deriving DecidableEq

/-- Modelled from the spec: `types.NewReceipt(root, cumulativeGasUsed)`
(outside `src/`) builds a receipt carrying the post-state commitment and
a copy of the current value of the cumulative-gas accumulator; the
remaining fields start at their zero values. -/
def NewReceipt (root : List Nat) (cumulativeGasUsed : Int) : Receipt :=
  { postState := root, cumulativeGasUsed := cumulativeGasUsed,
    txHash := 0, gasUsed := 0, contractAddress := none, logs := [], bloom := 0 }

/-- Modelled from the spec: `core.MessageCreatesContract` (outside
`src/`) — a message creates a contract exactly when the transaction has
no recipient. -/
def MessageCreatesContract (tx : Transaction) : Bool :=
  tx.recipient.isNone

/-- Go `statedb.StartRecord(txHash, blockHash, i)`: tag the state's
log-recording context. -/
def StartRecord (statedb : StateDB) (txHash blockHash : Hash) (i : Nat) : StateDB :=
  { statedb with record := some (txHash, blockHash, i) }

/-- Go `statedb.AddBalance(addr, amount)`: credit `amount` to `addr`. -/
def AddBalance (statedb : StateDB) (addr : Address) (amount : Int) : StateDB :=
  { statedb with
    balances := fun a => if a = addr then statedb.balances a + amount else statedb.balances a }

/-- Go `MaximumBlockReward = big.NewInt(5e+18)`. -/
def MaximumBlockReward : Int := 5000000000000000000

/-- Outcome of `ApplyTransaction`, mirroring the Go multi-return
`(*types.Receipt, vm.Logs, *big.Int, error)` plus the in-place mutation
of the gas pool, the cumulative-gas accumulator (`usedGas`) and the
state. On failure the accumulator is untouched (Go returns before the
`usedGas.Add` line), so only the pool and state are carried. -/
inductive ApplyOutcome where
  | failure (e : ExecError) (gp : Int) (statedb : StateDB)
  | success (receipt : Receipt) (logs : List Log) (gas : Int) (usedGas : Int) (gp : Int)
      (statedb : StateDB)

/-- Go `ApplyTransaction(config, bc, gp, statedb, header, tx, usedGas)`
(`state_processor.go` lines 101-126). `tx.SetSigner(...)` binds the
fork-dependent signer used by the external signature recovery; the
recovered sender is the `sender` field of the modelled transaction, so
the binding has no further observable effect here. -/
def ApplyTransaction (ext : Externals) (config : ChainConfig) (gp : Int) (statedb : StateDB)
    (header : Header) (tx : Transaction) (usedGas : Int) : ApplyOutcome :=
  match ext.applyMessage config header tx gp statedb with
  | .failure e gp1 statedb1 => .failure e gp1 statedb1
  | .success gas gp1 statedb1 =>
    let usedGas1 := usedGas + gas
    let receipt := NewReceipt (ext.intermediateRoot statedb1) usedGas1
    let receipt := { receipt with txHash := tx.hash }
    let receipt := { receipt with gasUsed := gas }
    let receipt :=
      if MessageCreatesContract tx then
        { receipt with contractAddress := some (ext.createAddress tx.sender tx.nonce) }
      else receipt
    let logs := statedb1.logs tx.hash
    let receipt := { receipt with logs := logs }
    let receipt := { receipt with bloom := ext.createBloom logs }
    .success receipt logs gas usedGas1 gp1 statedb1

/-- The error cases of `Process`: the two chain-identifier errors built
with `fmt.Errorf` (each carrying the values interpolated into its
message) and the verbatim propagation of an execution-engine error. -/
inductive ProcErr where
  | configNotSet (blockNumber : Int) (txChainId : Int)
  | invalidChainId (currentChainId : Int) (txChainId : Int)
  | execError (e : ExecError)
deriving DecidableEq

/-- Result of `Process`, mirroring the Go multi-return
`(types.Receipts, vm.Logs, *big.Int, error)` plus the in-place state
mutation. `gasUsed` is an `Option` because the Go function returns a
nil `*big.Int` on the chain-identifier error paths but the accumulator
pointer on the execution-error path. -/
structure ProcessResult where
  receipts : List Receipt
  logs : List Log
  gasUsed : Option Int
  statedb : StateDB
  err : Option ProcErr

/-- The chain-identifier check `Process` runs on a protected
transaction (`state_processor.go` lines 74-81): `none` means the check
passed; otherwise the error `Process` returns. -/
def checkProtected (config : ChainConfig) (blockNumber : Int) (tx : Transaction) :
    Option ProcErr :=
  match config.getFeatureChainId blockNumber with
  | none => some (.configNotSet blockNumber tx.chainId)
  | some chainId =>
    if tx.chainId ≠ chainId then some (.invalidChainId config.getChainID tx.chainId)
    else none

/-- Go `AccumulateRewards(statedb, header, uncles)`
(`state_processor.go` lines 132-153). The scratch big-int `r` is fully
overwritten on every loop iteration (`r.Add(uncle.Number, big8)` and
`r.Div(MaximumBlockReward, big32)` both replace its value), so the fold
carries only the state and the `reward` accumulator. `big.Int.Div` is
Euclidean division, hence `Int.ediv`. -/
def AccumulateRewards (statedb : StateDB) (header : Header) (uncles : List Header) : StateDB :=
  let res := uncles.foldl
    (fun (acc : StateDB × Int) (uncle : Header) =>
      let r := Int.ediv ((uncle.number + 8 - header.number) * MaximumBlockReward) 8
      (AddBalance acc.1 uncle.coinbase r, acc.2 + Int.ediv MaximumBlockReward 32))
    (statedb, MaximumBlockReward)
  AddBalance res.1 header.coinbase res.2

/-- The transaction loop of `Process` (`state_processor.go` lines
72-93), in explicit state-passing form: `i` is the loop index, `gp` the
gas pool, `totalUsedGas` the cumulative-gas accumulator, and
`receipts` / `allLogs` the accumulated outputs. After the last
transaction, `AccumulateRewards` runs and the accumulators are
returned. -/
def processTxs (ext : Externals) (config : ChainConfig) (blockHash : Hash) (header : Header)
    (uncles : List Header) :
    List Transaction → Nat → Int → Int → StateDB → List Receipt → List Log → ProcessResult
  | [], _, _, totalUsedGas, statedb, receipts, allLogs =>
    { receipts := receipts, logs := allLogs, gasUsed := some totalUsedGas,
      statedb := AccumulateRewards statedb header uncles, err := none }
  | tx :: txs, i, gp, totalUsedGas, statedb, receipts, allLogs =>
    match (if tx.isProtected then checkProtected config header.number tx else none) with
    | some er =>
      { receipts := [], logs := [], gasUsed := none, statedb := statedb, err := some er }
    | none =>
      let statedb1 := StartRecord statedb tx.hash blockHash i
      match ApplyTransaction ext config gp statedb1 header tx totalUsedGas with
      | .failure e gp2 statedb2 =>
        { receipts := [], logs := [], gasUsed := some totalUsedGas, statedb := statedb2,
          err := some (.execError e) }
      | .success receipt logs gas usedGas gp2 statedb2 =>
        processTxs ext config blockHash header uncles txs (i + 1) gp2 usedGas statedb2
          (receipts ++ [receipt]) (allLogs ++ logs)

/-- Go `(p *StateProcessor) Process(block, statedb)`
(`state_processor.go` lines 62-94): gas pool initialised to the block's
gas limit, accumulators to zero / empty, then the transaction loop. -/
def Process (ext : Externals) (config : ChainConfig) (block : Block) (statedb : StateDB) :
    ProcessResult :=
  processTxs ext config block.hash block.header block.uncles block.transactions 0
    block.header.gasLimit 0 statedb [] []

/-- Go `big.NewInt(0).DivMod(x, y, big.NewInt(0))`: Euclidean quotient
and modulus (big.Int's `DivMod`; it panics on `y = 0`, which Lean's
total `ediv`/`emod` map to the pair `(0, x)` — all claims about its
caller assume a nonzero divisor). -/
def DivMod (x y : Int) : Int × Int :=
  (Int.ediv x y, Int.emod x y)

/-- Go `getBlockEra(blockNum, eraLength)` (`state_processor.go` lines
157-160): the second component of `DivMod` — the modulus `m` — plus
`common.Big1`. -/
def getBlockEra (blockNum eraLength : Int) : Int :=
  let m := (DivMod blockNum eraLength).2
  m + 1

/-!
Specification-side definitions: vocabulary used to state the claims,
written from the claims' words, never consulted by the embedded code.
-/

/-- Sum of the per-transaction `GasUsed` fields over a receipt list. -/
def receiptsGasSum (rs : List Receipt) : Int :=
  (rs.map Receipt.gasUsed).sum

/-- Every receipt's cumulative gas equals the prefix sum of the
per-receipt `GasUsed` values through its own index. -/
def cumulativeIsPrefixSum (rs : List Receipt) : Prop :=
  ∀ i (h : i < rs.length), (rs.get ⟨i, h⟩).cumulativeGasUsed = receiptsGasSum (rs.take (i + 1))

/-- The gas consumed by each transaction the loop of `Process` applies
successfully before its first failure (all of them when the block
succeeds), replayed step by step from the same inputs. -/
def succeededGas (ext : Externals) (config : ChainConfig) (blockHash : Hash) (header : Header) :
    List Transaction → Nat → Int → Int → StateDB → List Int
  | [], _, _, _, _ => []
  | tx :: txs, i, gp, totalUsedGas, statedb =>
    match (if tx.isProtected then checkProtected config header.number tx else none) with
    | some _ => []
    | none =>
      let statedb1 := StartRecord statedb tx.hash blockHash i
      match ApplyTransaction ext config gp statedb1 header tx totalUsedGas with
      | .failure _ _ _ => []
      | .success _ _ gas usedGas gp2 statedb2 =>
        gas :: succeededGas ext config blockHash header txs (i + 1) gp2 usedGas statedb2

/-!
Helper lemmas, shared by the claim theorems below.
-/

theorem receiptsGasSum_append (rs1 rs2 : List Receipt) :
    receiptsGasSum (rs1 ++ rs2) = receiptsGasSum rs1 + receiptsGasSum rs2 := by
  simp [receiptsGasSum]

theorem receiptsGasSum_singleton (r : Receipt) : receiptsGasSum [r] = r.gasUsed := by
  simp [receiptsGasSum]

theorem cumulativeIsPrefixSum_nil : cumulativeIsPrefixSum [] := by
  intro i h
  simp at h

theorem cumulativeIsPrefixSum_append (rs : List Receipt) (r : Receipt)
    (h : cumulativeIsPrefixSum rs)
    (hr : r.cumulativeGasUsed = receiptsGasSum rs + r.gasUsed) :
    cumulativeIsPrefixSum (rs ++ [r]) := by
  intro i hi
  have hlen : i < rs.length + 1 := by simpa using hi
  rcases Nat.lt_or_ge i rs.length with hlt | hge
  · have hget : (rs ++ [r]).get ⟨i, hi⟩ = rs.get ⟨i, hlt⟩ := by
      simp [List.getElem_append_left, hlt]
    have htake : (rs ++ [r]).take (i + 1) = rs.take (i + 1) := by
      rw [List.take_append_eq_append_take, Nat.sub_eq_zero_of_le hlt, List.take_zero,
        List.append_nil]
    rw [hget, htake]
    exact h i hlt
  · have hie : i = rs.length := Nat.le_antisymm (Nat.lt_succ_iff.mp hlen) hge
    subst hie
    have hget : (rs ++ [r]).get ⟨rs.length, hi⟩ = r := by
      simp
    have htake : (rs ++ [r]).take (rs.length + 1) = rs ++ [r] := by
      have : rs.length + 1 = (rs ++ [r]).length := by simp
      rw [this, List.take_length]
    rw [hget, htake, receiptsGasSum_append, receiptsGasSum_singleton]
    exact hr

theorem checkProtected_cases (config : ChainConfig) (n : Int) (tx : Transaction)
    (er : ProcErr) (h : checkProtected config n tx = some er) :
    er = .configNotSet n tx.chainId ∨ er = .invalidChainId config.getChainID tx.chainId := by
  cases hf : config.getFeatureChainId n with
  | none =>
    simp only [checkProtected, hf, Option.some.injEq] at h
    exact Or.inl h.symm
  | some chainId =>
    simp only [checkProtected, hf] at h
    by_cases hne : tx.chainId ≠ chainId
    · rw [if_pos hne] at h
      exact Or.inr (Option.some.inj h).symm
    · rw [if_neg hne] at h
      exact absurd h (by simp)

theorem ApplyTransaction_success_spec (ext : Externals) (config : ChainConfig) (gp : Int)
    (statedb : StateDB) (header : Header) (tx : Transaction) (usedGas : Int)
    (receipt : Receipt) (logs : List Log) (gas usedGas1 gp1 : Int) (statedb1 : StateDB)
    (h : ApplyTransaction ext config gp statedb header tx usedGas =
      .success receipt logs gas usedGas1 gp1 statedb1) :
    usedGas1 = usedGas + gas ∧ receipt.gasUsed = gas ∧
      receipt.cumulativeGasUsed = usedGas + gas ∧ receipt.txHash = tx.hash ∧
      receipt.contractAddress =
        (if tx.recipient.isNone then some (ext.createAddress tx.sender tx.nonce) else none) := by
  unfold ApplyTransaction at h
  cases hm : ext.applyMessage config header tx gp statedb with
  | failure e gp2 st2 =>
    rw [hm] at h
    exact absurd h (by simp)
  | success g gp2 st2 =>
    rw [hm] at h
    simp only [MessageCreatesContract] at h
    by_cases hc : tx.recipient.isNone
    · rw [if_pos hc] at h
      injection h with h1 h2 h3 h4 h5 h6
      subst h1 h2 h3 h4
      refine ⟨rfl, rfl, rfl, rfl, ?_⟩
      rw [if_pos hc]
    · rw [if_neg hc] at h
      injection h with h1 h2 h3 h4 h5 h6
      subst h1 h2 h3 h4
      refine ⟨rfl, rfl, rfl, rfl, ?_⟩
      rw [if_neg hc]
      rfl

theorem ApplyTransaction_failure_spec (ext : Externals) (config : ChainConfig) (gp : Int)
    (statedb : StateDB) (header : Header) (tx : Transaction) (usedGas : Int)
    (e : ExecError) (gp1 : Int) (statedb1 : StateDB)
    (h : ApplyTransaction ext config gp statedb header tx usedGas =
      .failure e gp1 statedb1) :
    ext.applyMessage config header tx gp statedb = .failure e gp1 statedb1 := by
  unfold ApplyTransaction at h
  cases hm : ext.applyMessage config header tx gp statedb with
  | failure e2 gp2 st2 =>
    rw [hm] at h
    injection h with h1 h2 h3
    subst h1 h2 h3
    rfl
  | success g gp2 st2 =>
    rw [hm] at h
    exact absurd h (by simp)

theorem processTxs_error_spec (ext : Externals) (config : ChainConfig) (bh : Hash)
    (header : Header) (uncles : List Header) :
    ∀ (txs : List Transaction) (i : Nat) (gp acc : Int) (st : StateDB)
      (rs : List Receipt) (ls : List Log) (er : ProcErr),
      (processTxs ext config bh header uncles txs i gp acc st rs ls).err = some er →
      (processTxs ext config bh header uncles txs i gp acc st rs ls).receipts = [] ∧
        (processTxs ext config bh header uncles txs i gp acc st rs ls).logs = [] ∧
        (processTxs ext config bh header uncles txs i gp acc st rs ls).gasUsed =
          (match er with
            | .execError _ => some (acc + (succeededGas ext config bh header txs i gp acc st).sum)
            | _ => none) := by
  intro txs
  induction txs with
  | nil =>
    intro i gp acc st rs ls er h
    simp [processTxs] at h
  | cons tx txs ih =>
    intro i gp acc st rs ls er h
    cases hchk : (if tx.isProtected then checkProtected config header.number tx else none) with
    | some er2 =>
      simp only [processTxs, hchk] at h ⊢
      obtain rfl : er2 = er := Option.some.inj h
      have htx : tx.isProtected = true := by
        by_contra htx2
        simp [htx2] at hchk
      simp only [htx, if_true] at hchk
      rcases checkProtected_cases config header.number tx er2 hchk with h1 | h1 <;>
        subst h1 <;> simp
    | none =>
      simp only [processTxs, hchk] at h ⊢
      cases happ : ApplyTransaction ext config gp (StartRecord st tx.hash bh i) header tx acc with
      | failure e gp2 st2 =>
        simp only [happ] at h ⊢
        obtain rfl : ProcErr.execError e = er := Option.some.inj h
        refine ⟨trivial, trivial, ?_⟩
        simp only [succeededGas, hchk, happ, List.sum_nil]
        simp
      | success receipt logs2 gas usedGas gp2 st2 =>
        simp only [happ] at h ⊢
        obtain ⟨hr, hl, hg⟩ :=
          ih (i + 1) gp2 usedGas st2 (rs ++ [receipt]) (ls ++ logs2) er h
        refine ⟨hr, hl, ?_⟩
        rw [hg]
        cases er with
        | configNotSet n c => rfl
        | invalidChainId a b => rfl
        | execError e =>
          simp only [succeededGas, hchk, happ, List.sum_cons, Option.some.injEq]
          have husd := (ApplyTransaction_success_spec ext config gp
            (StartRecord st tx.hash bh i) header tx acc receipt logs2 gas usedGas gp2 st2
            happ).1
          rw [husd]
          ring

theorem processTxs_ok_spec (ext : Externals) (config : ChainConfig) (bh : Hash)
    (header : Header) (uncles : List Header) :
    ∀ (txs : List Transaction) (i : Nat) (gp acc : Int) (st : StateDB)
      (rs : List Receipt) (ls : List Log),
      acc = receiptsGasSum rs →
      cumulativeIsPrefixSum rs →
      (processTxs ext config bh header uncles txs i gp acc st rs ls).err = none →
      (processTxs ext config bh header uncles txs i gp acc st rs ls).receipts.map
          Receipt.txHash = rs.map Receipt.txHash ++ txs.map Transaction.hash ∧
        (processTxs ext config bh header uncles txs i gp acc st rs ls).receipts.map
          Receipt.gasUsed =
          rs.map Receipt.gasUsed ++ succeededGas ext config bh header txs i gp acc st ∧
        cumulativeIsPrefixSum
          (processTxs ext config bh header uncles txs i gp acc st rs ls).receipts ∧
        (processTxs ext config bh header uncles txs i gp acc st rs ls).gasUsed =
          some (receiptsGasSum
            (processTxs ext config bh header uncles txs i gp acc st rs ls).receipts) := by
  intro txs
  induction txs with
  | nil =>
    intro i gp acc st rs ls hacc hcum _
    simp only [processTxs]
    refine ⟨by simp, ?_, hcum, by rw [hacc]⟩
    simp [succeededGas]
  | cons tx txs ih =>
    intro i gp acc st rs ls hacc hcum h
    cases hchk : (if tx.isProtected then checkProtected config header.number tx else none) with
    | some er2 =>
      simp only [processTxs, hchk] at h
      exact absurd h (by simp)
    | none =>
      simp only [processTxs, hchk] at h ⊢
      cases happ : ApplyTransaction ext config gp (StartRecord st tx.hash bh i) header tx acc with
      | failure e gp2 st2 =>
        simp only [happ] at h
        exact absurd h (by simp)
      | success receipt logs2 gas usedGas gp2 st2 =>
        simp only [happ] at h ⊢
        obtain ⟨h1, h2, h3, h4, h5⟩ := ApplyTransaction_success_spec ext config gp
          (StartRecord st tx.hash bh i) header tx acc receipt logs2 gas usedGas gp2 st2 happ
        have hacc2 : usedGas = receiptsGasSum (rs ++ [receipt]) := by
          rw [receiptsGasSum_append, receiptsGasSum_singleton, h1, hacc, h2]
        have hcum2 : cumulativeIsPrefixSum (rs ++ [receipt]) := by
          apply cumulativeIsPrefixSum_append rs receipt hcum
          rw [h3, h2, hacc]
        obtain ⟨g1, g2, g3, g4⟩ := ih (i + 1) gp2 usedGas st2 (rs ++ [receipt]) (ls ++ logs2)
          hacc2 hcum2 h
        refine ⟨?_, ?_, g3, g4⟩
        · rw [g1]
          simp [h4]
        · rw [g2]
          simp only [succeededGas, hchk, happ]
          simp [h2]

/-- The uncle-specific reward of the claim: `(u.number + 8 −
header.number) × baseReward / 8`, with Euclidean division as in
`big.Int.Div`. -/
def uncleReward (header uncle : Header) : Int :=
  Int.ediv ((uncle.number + 8 - header.number) * MaximumBlockReward) 8

/-- Total uncle-reward credit an address receives from a list of
uncles: the sum of the uncle-specific rewards of the uncles whose
coinbase is that address. -/
def uncleCreditsTo (header : Header) (uncles : List Header) (a : Address) : Int :=
  (uncles.map (fun u => if a = u.coinbase then uncleReward header u else 0)).sum

theorem AccumulateRewards_foldl_spec (header : Header) :
    ∀ (uncles : List Header) (statedb : StateDB) (w : Int),
      uncles.foldl
        (fun (acc : StateDB × Int) (uncle : Header) =>
          let r := Int.ediv ((uncle.number + 8 - header.number) * MaximumBlockReward) 8
          (AddBalance acc.1 uncle.coinbase r, acc.2 + Int.ediv MaximumBlockReward 32))
        (statedb, w) =
      ({ statedb with
          balances := fun a => statedb.balances a + uncleCreditsTo header uncles a },
        w + uncles.length * Int.ediv MaximumBlockReward 32) := by
  intro uncles
  induction uncles with
  | nil =>
    intro statedb w
    simp [uncleCreditsTo]
  | cons u us ih =>
    intro statedb w
    rw [List.foldl_cons]
    rw [ih]
    refine Prod.ext ?_ ?_
    · show ({ AddBalance statedb u.coinbase _ with
          balances := fun a =>
            (AddBalance statedb u.coinbase _).balances a + uncleCreditsTo header us a } :
          StateDB) = _
      simp only [AddBalance, uncleCreditsTo, List.map_cons, List.sum_cons]
      refine congrArg (fun b => StateDB.mk b statedb.record statedb.logs) ?_
      funext a
      by_cases hc : a = u.coinbase
      · subst hc
        simp [uncleReward]
        ring
      · simp [hc]
    · show w + Int.ediv MaximumBlockReward 32 + us.length * Int.ediv MaximumBlockReward 32 = _
      simp only [List.length_cons]
      push_cast
      ring

theorem AccumulateRewards_balances (statedb : StateDB) (header : Header)
    (uncles : List Header) (a : Address) :
    (AccumulateRewards statedb header uncles).balances a =
      statedb.balances a + uncleCreditsTo header uncles a +
        (if a = header.coinbase then
          MaximumBlockReward + uncles.length * Int.ediv MaximumBlockReward 32
        else 0) := by
  unfold AccumulateRewards
  rw [AccumulateRewards_foldl_spec]
  by_cases hc : a = header.coinbase
  · subst hc
    simp [AddBalance]
  · simp [AddBalance, hc]

theorem cumulativeIsPrefixSum_mono (rs : List Receipt) (hcum : cumulativeIsPrefixSum rs)
    (hpos : ∀ r ∈ rs, 0 ≤ r.gasUsed) :
    ∀ i j (hi : i < rs.length) (hj : j < rs.length), i ≤ j →
      (rs.get ⟨i, hi⟩).cumulativeGasUsed ≤ (rs.get ⟨j, hj⟩).cumulativeGasUsed := by
  intro i j hi hj hij
  rw [hcum i hi, hcum j hj]
  have hsplit : rs.take (j + 1) = rs.take (i + 1) ++ ((rs.drop (i + 1)).take (j - i)) := by
    have hj1 : j + 1 = (i + 1) + (j - i) := by omega
    rw [hj1, List.take_add]
  rw [hsplit, receiptsGasSum_append]
  have hnn : 0 ≤ receiptsGasSum ((rs.drop (i + 1)).take (j - i)) := by
    apply List.sum_nonneg
    intro x hx
    simp only [receiptsGasSum, List.mem_map] at hx
    obtain ⟨r, hr, hxr⟩ := hx
    rw [← hxr]
    exact hpos r (List.mem_of_mem_drop (List.mem_of_mem_take hr))
  linarith

/-!
Concrete fixtures used by the witness theorems.
-/

/-- A concrete pre-state: all balances zero, no recording context, no
logs. -/
def testSt : StateDB := { balances := fun _ => 0, record := none, logs := fun _ => [] }

/-- A configuration with the "eip155" rule configured to chain id 61
at every block number. -/
def testCfg : ChainConfig := { getFeatureChainId := fun _ => some 61, getChainID := 61 }

/-- A configuration with the "eip155" rule never configured. -/
def testCfgNone : ChainConfig := { getFeatureChainId := fun _ => none, getChainID := 61 }

/-- A concrete header at block number 100. -/
def testHeader : Header := { number := 100, coinbase := 1, gasLimit := 100000 }

/-- A concrete uncle header at the previous block number. -/
def testUncle : Header := { number := 99, coinbase := 2, gasLimit := 100000 }

/-- An unprotected transaction with a recipient. -/
def testTx1 : Transaction :=
  { isProtected := false, chainId := 0, hash := 10, nonce := 0, recipient := some 7, sender := 5 }

/-- A second unprotected transaction with a recipient. -/
def testTx2 : Transaction :=
  { isProtected := false, chainId := 0, hash := 11, nonce := 1, recipient := some 7, sender := 5 }

/-- An unprotected contract-creation transaction (no recipient). -/
def testTxCreate : Transaction :=
  { isProtected := false, chainId := 0, hash := 12, nonce := 3, recipient := none, sender := 5 }

/-- A protected transaction whose chain id 62 mismatches `testCfg`. -/
def testTxProt : Transaction :=
  { isProtected := true, chainId := 62, hash := 13, nonce := 0, recipient := some 7, sender := 5 }

/-- An execution engine that always succeeds consuming 21000 gas and
leaves the state untouched. -/
def testExt : Externals :=
  { applyMessage := fun _ _ _ gp st => .success 21000 (gp - 21000) st,
    intermediateRoot := fun _ => [],
    createAddress := fun a n => a + n,
    createBloom := fun _ => 0 }

/-- An execution engine that fails with error 7 on the transaction of
nonce 1 and otherwise behaves like `testExt`. -/
def testExtFail : Externals :=
  { applyMessage := fun _ _ tx gp st =>
      if tx.nonce = 1 then .failure 7 gp st else .success 21000 (gp - 21000) st,
    intermediateRoot := fun _ => [],
    createAddress := fun a n => a + n,
    createBloom := fun _ => 0 }

/-- A block with two plain transactions and no uncles. -/
def testBlk : Block :=
  { header := testHeader, transactions := [testTx1, testTx2], uncles := [], hash := 99 }

/-- A block with no transactions and no uncles. -/
def testBlkEmpty : Block :=
  { header := testHeader, transactions := [], uncles := [], hash := 99 }

/-- A block whose only transaction is the mismatching protected one. -/
def testBlkProt : Block :=
  { header := testHeader, transactions := [testTxProt], uncles := [], hash := 99 }

/-- The receipt `ApplyTransaction` builds for `testTxCreate` under
`testExt` from a fresh state and a zero accumulator. -/
def testReceiptCreate : Receipt :=
  { postState := [], cumulativeGasUsed := 21000, txHash := 12, gasUsed := 21000,
    contractAddress := some 8, logs := [], bloom := 0 }

/-!
Claim theorems.
-/

/-- C1: whenever `Process` returns an error, it returns nil receipts
and nil logs (never a partial receipt sequence as success), and when
the error came from applying a transaction, the returned gas-used value
is exactly the gas accumulated by the transactions that succeeded
before the failing one. -/
theorem C1_error_aborts_block (ext : Externals) (config : ChainConfig) (block : Block)
    (statedb : StateDB) (er : ProcErr)
    (h : (Process ext config block statedb).err = some er) :
    (Process ext config block statedb).receipts = [] ∧
      (Process ext config block statedb).logs = [] ∧
      ∀ e, er = .execError e →
        (Process ext config block statedb).gasUsed =
          some ((succeededGas ext config block.hash block.header block.transactions 0
            block.header.gasLimit 0 statedb).sum) := by
  simp only [Process] at h ⊢
  obtain ⟨h1, h2, h3⟩ := processTxs_error_spec ext config block.hash block.header block.uncles
    block.transactions 0 block.header.gasLimit 0 statedb [] [] er h
  refine ⟨h1, h2, ?_⟩
  intro e he
  subst he
  rw [h3]
  simp

/-- C9: when `Process` fails, the gas-used value it returns is nil
exactly on the two chain-identifier error paths (rule not configured,
or identifier mismatch), whereas a failure inside `ApplyTransaction`
returns the accumulated gas total — so callers cannot rely on a
non-nil gas value on every error path. -/
theorem C9_gas_nil_iff_chainid_error (ext : Externals) (config : ChainConfig) (block : Block)
    (statedb : StateDB) (er : ProcErr)
    (h : (Process ext config block statedb).err = some er) :
    ((Process ext config block statedb).gasUsed = none ↔
      (∃ n c, er = .configNotSet n c) ∨ (∃ cur c, er = .invalidChainId cur c)) ∧
      (∀ e, er = .execError e →
        (Process ext config block statedb).gasUsed =
          some (0 + (succeededGas ext config block.hash block.header block.transactions 0
            block.header.gasLimit 0 statedb).sum)) := by
  simp only [Process] at h ⊢
  obtain ⟨-, -, h3⟩ := processTxs_error_spec ext config block.hash block.header block.uncles
    block.transactions 0 block.header.gasLimit 0 statedb [] [] er h
  constructor
  · rw [h3]
    cases er with
    | configNotSet n c => simp
    | invalidChainId cur c => simp
    | execError e => simp
  · intro e he
    subst he
    rw [h3]

/-- C2: when `Process` succeeds, the receipts follow the transaction
order (their transaction hashes are the block's transaction hashes in
order), each receipt's `GasUsed` is the gas the engine reported for
that transaction, each receipt's cumulative gas equals the prefix sum
of the per-receipt `GasUsed` values through its index (hence is
non-decreasing whenever the per-transaction gas values are
non-negative), and the total gas `Process` returns is the sum of all
receipts' `GasUsed`. -/
theorem C2_receipt_trail (ext : Externals) (config : ChainConfig) (block : Block)
    (statedb : StateDB)
    (h : (Process ext config block statedb).err = none) :
    (Process ext config block statedb).receipts.map Receipt.txHash =
        block.transactions.map Transaction.hash ∧
      (Process ext config block statedb).receipts.map Receipt.gasUsed =
        succeededGas ext config block.hash block.header block.transactions 0
          block.header.gasLimit 0 statedb ∧
      cumulativeIsPrefixSum (Process ext config block statedb).receipts ∧
      (Process ext config block statedb).gasUsed =
        some (receiptsGasSum (Process ext config block statedb).receipts) ∧
      ((∀ r ∈ (Process ext config block statedb).receipts, 0 ≤ r.gasUsed) →
        ∀ i j (hi : i < (Process ext config block statedb).receipts.length)
          (hj : j < (Process ext config block statedb).receipts.length), i ≤ j →
          ((Process ext config block statedb).receipts.get ⟨i, hi⟩).cumulativeGasUsed ≤
            ((Process ext config block statedb).receipts.get ⟨j, hj⟩).cumulativeGasUsed) := by
  simp only [Process] at h ⊢
  obtain ⟨g1, g2, g3, g4⟩ := processTxs_ok_spec ext config block.hash block.header block.uncles
    block.transactions 0 block.header.gasLimit 0 statedb [] [] (by simp [receiptsGasSum])
    cumulativeIsPrefixSum_nil h
  refine ⟨by simpa using g1, by simpa using g2, g3, g4, ?_⟩
  intro hpos
  exact cumulativeIsPrefixSum_mono _ g3 hpos

/-- C3: `AccumulateRewards` credits each uncle's coinbase with
(uncle.number + 8 − header.number) × baseReward / 8 (summed over the
uncles naming that coinbase) and the header's coinbase with baseReward
plus baseReward/32 per uncle; in particular, with one uncle at
header.number − 1 the uncle credit is 7/8 × baseReward and the
coinbase total is baseReward + baseReward/32. -/
theorem C3_reward_schedule :
    (∀ (statedb : StateDB) (header : Header) (uncles : List Header) (a : Address),
      (AccumulateRewards statedb header uncles).balances a =
        statedb.balances a + uncleCreditsTo header uncles a +
          (if a = header.coinbase then
            MaximumBlockReward + uncles.length * Int.ediv MaximumBlockReward 32
          else 0)) ∧
      (AccumulateRewards testSt testHeader [testUncle]).balances 2 =
        Int.ediv (7 * MaximumBlockReward) 8 ∧
      (AccumulateRewards testSt testHeader [testUncle]).balances 2 * 8 =
        7 * MaximumBlockReward ∧
      (AccumulateRewards testSt testHeader [testUncle]).balances 1 =
        MaximumBlockReward + Int.ediv MaximumBlockReward 32 := by
  refine ⟨AccumulateRewards_balances, ?_, ?_, ?_⟩ <;> decide

/-- C4: when the loop of `Process` reaches a protected transaction
while the replay-protection rule is configured and its required chain
identifier differs from the transaction's, `Process` returns a
validation error carrying the configured identifier
(`config.GetChainID()`) and the transaction's, with nil receipts and
the state untouched, and the result does not depend on the remaining
transactions (none of them is processed). -/
theorem C4_chainid_mismatch (ext : Externals) (config : ChainConfig) (header : Header)
    (tx : Transaction) (cid : Int)
    (hprot : tx.isProtected = true)
    (hcfg : config.getFeatureChainId header.number = some cid)
    (hne : tx.chainId ≠ cid) :
    (∀ (bh : Hash) (uncles : List Header) (txs : List Transaction) (i : Nat) (gp acc : Int)
        (st : StateDB) (rs : List Receipt) (ls : List Log),
      processTxs ext config bh header uncles (tx :: txs) i gp acc st rs ls =
        { receipts := [], logs := [], gasUsed := none, statedb := st,
          err := some (.invalidChainId config.getChainID tx.chainId) }) ∧
      ∀ (block : Block) (st : StateDB), block.header = header →
        (∃ txs, block.transactions = tx :: txs) →
        Process ext config block st =
          { receipts := [], logs := [], gasUsed := none, statedb := st,
            err := some (.invalidChainId config.getChainID tx.chainId) } := by
  have hstep : ∀ (bh : Hash) (uncles : List Header) (txs : List Transaction) (i : Nat)
      (gp acc : Int) (st : StateDB) (rs : List Receipt) (ls : List Log),
      processTxs ext config bh header uncles (tx :: txs) i gp acc st rs ls =
        { receipts := [], logs := [], gasUsed := none, statedb := st,
          err := some (.invalidChainId config.getChainID tx.chainId) } := by
    intro bh uncles txs i gp acc st rs ls
    simp only [processTxs, hprot, if_true, checkProtected, hcfg, if_pos hne]
  refine ⟨hstep, ?_⟩
  rintro block st hh ⟨txs, htx⟩
  rw [Process, htx, hh]
  exact hstep block.hash block.uncles txs 0 header.gasLimit 0 st [] []

/-- C5: when the loop of `Process` reaches a protected transaction
while the replay-protection rule is not configured for the chain at the
block's number (or its chain-identifier parameter is absent), `Process`
returns a configuration error carrying the block number and the
transaction's declared chain id, with nil receipts and the state
untouched, and the result does not depend on the remaining
transactions. -/
theorem C5_rule_not_configured (ext : Externals) (config : ChainConfig) (header : Header)
    (tx : Transaction)
    (hprot : tx.isProtected = true)
    (hcfg : config.getFeatureChainId header.number = none) :
    (∀ (bh : Hash) (uncles : List Header) (txs : List Transaction) (i : Nat) (gp acc : Int)
        (st : StateDB) (rs : List Receipt) (ls : List Log),
      processTxs ext config bh header uncles (tx :: txs) i gp acc st rs ls =
        { receipts := [], logs := [], gasUsed := none, statedb := st,
          err := some (.configNotSet header.number tx.chainId) }) ∧
      ∀ (block : Block) (st : StateDB), block.header = header →
        (∃ txs, block.transactions = tx :: txs) →
        Process ext config block st =
          { receipts := [], logs := [], gasUsed := none, statedb := st,
            err := some (.configNotSet header.number tx.chainId) } := by
  have hstep : ∀ (bh : Hash) (uncles : List Header) (txs : List Transaction) (i : Nat)
      (gp acc : Int) (st : StateDB) (rs : List Receipt) (ls : List Log),
      processTxs ext config bh header uncles (tx :: txs) i gp acc st rs ls =
        { receipts := [], logs := [], gasUsed := none, statedb := st,
          err := some (.configNotSet header.number tx.chainId) } := by
    intro bh uncles txs i gp acc st rs ls
    simp only [processTxs, hprot, if_true, checkProtected, hcfg]
  refine ⟨hstep, ?_⟩
  rintro block st hh ⟨txs, htx⟩
  rw [Process, htx, hh]
  exact hstep block.hash block.uncles txs 0 header.gasLimit 0 st [] []

/-- C6: on a block with no transactions and no uncles, `Process`
returns empty receipts, empty logs, zero total gas and no error, and
the only state mutation is a credit of exactly the base reward to the
header's coinbase (recording context and log store are untouched). -/
theorem C6_empty_block (ext : Externals) (config : ChainConfig) (block : Block)
    (statedb : StateDB)
    (ht : block.transactions = []) (hu : block.uncles = []) :
    (Process ext config block statedb).receipts = [] ∧
      (Process ext config block statedb).logs = [] ∧
      (Process ext config block statedb).gasUsed = some 0 ∧
      (Process ext config block statedb).err = none ∧
      (Process ext config block statedb).statedb.record = statedb.record ∧
      (Process ext config block statedb).statedb.logs = statedb.logs ∧
      ∀ a, (Process ext config block statedb).statedb.balances a =
        statedb.balances a + (if a = block.header.coinbase then MaximumBlockReward else 0) := by
  have hp : Process ext config block statedb =
      { receipts := [], logs := [], gasUsed := some 0,
        statedb := AccumulateRewards statedb block.header [], err := none } := by
    rw [Process, ht, hu]
    rfl
  rw [hp]
  refine ⟨rfl, rfl, rfl, rfl, rfl, rfl, ?_⟩
  intro a
  rw [AccumulateRewards_balances]
  simp [uncleCreditsTo]

/-- C7: a successfully applied transaction yields a receipt whose
created-contract address is the deterministic derivation from the
sender's address and the transaction's nonce exactly when the
transaction has no recipient, and no created-contract address
otherwise. -/
theorem C7_created_contract_address (ext : Externals) (config : ChainConfig) (gp : Int)
    (statedb : StateDB) (header : Header) (tx : Transaction) (usedGas : Int)
    (receipt : Receipt) (logs : List Log) (gas usedGas1 gp1 : Int) (statedb1 : StateDB)
    (h : ApplyTransaction ext config gp statedb header tx usedGas =
      .success receipt logs gas usedGas1 gp1 statedb1) :
    receipt.contractAddress =
      (if tx.recipient.isNone then some (ext.createAddress tx.sender tx.nonce) else none) :=
  (ApplyTransaction_success_spec ext config gp statedb header tx usedGas receipt logs gas
    usedGas1 gp1 statedb1 h).2.2.2.2

/-- C8: `Process` is deterministic — two invocations on identical
(block, state) inputs, with the same deterministic external
collaborators, produce identical results (receipts, logs, gas used,
error, and the resulting state including all reward credits). -/
theorem C8_deterministic (ext : Externals) (config : ChainConfig) (block : Block)
    (st1 st2 : StateDB) (h : st1 = st2) :
    Process ext config block st1 = Process ext config block st2 := by
  rw [h]

/-- C10: for any block number and nonzero era length, `getBlockEra`
returns (blockNumber mod eraLength) + 1: its value is determined by the
Euclidean remainder of the block number by the era length alone, so any
two block numbers with the same remainder — in particular numbers
differing by a multiple of the era length, whose quotients differ —
get the same era. -/
theorem C10_getBlockEra_mod (blockNum eraLength : Int) (h : eraLength ≠ 0) :
    getBlockEra blockNum eraLength = Int.emod blockNum eraLength + 1 ∧
      (∀ n2, Int.emod n2 eraLength = Int.emod blockNum eraLength →
        getBlockEra n2 eraLength = getBlockEra blockNum eraLength) ∧
      ∀ k, getBlockEra (blockNum + eraLength * k) eraLength = getBlockEra blockNum eraLength := by
  refine ⟨rfl, ?_, ?_⟩
  · intro n2 he
    show Int.emod n2 eraLength + 1 = Int.emod blockNum eraLength + 1
    rw [he]
  · intro k
    show Int.emod (blockNum + eraLength * k) eraLength + 1 = Int.emod blockNum eraLength + 1
    exact congrArg (fun z => z + 1) (Int.add_mul_emod_self_left blockNum eraLength k)

/-!
Witness theorems: each instantiates its claim theorem at a concrete
input and discharges the hypotheses there.
-/

/-- Witness for C1: a two-transaction block whose second transaction
fails with execution error 7. -/
theorem C1_error_aborts_block_witness :
    (Process testExtFail testCfg testBlk testSt).err = some (.execError 7) ∧
      ((Process testExtFail testCfg testBlk testSt).receipts = [] ∧
        (Process testExtFail testCfg testBlk testSt).logs = [] ∧
        ∀ e, ProcErr.execError 7 = .execError e →
          (Process testExtFail testCfg testBlk testSt).gasUsed =
            some ((succeededGas testExtFail testCfg testBlk.hash testBlk.header
              testBlk.transactions 0 testBlk.header.gasLimit 0 testSt).sum)) :=
  ⟨by decide,
    C1_error_aborts_block testExtFail testCfg testBlk testSt (.execError 7) (by decide)⟩

/-- Witness for C2: a two-transaction block that succeeds. -/
theorem C2_receipt_trail_witness :
    (Process testExt testCfg testBlk testSt).err = none ∧
      ((Process testExt testCfg testBlk testSt).receipts.map Receipt.txHash =
          testBlk.transactions.map Transaction.hash ∧
        (Process testExt testCfg testBlk testSt).receipts.map Receipt.gasUsed =
          succeededGas testExt testCfg testBlk.hash testBlk.header testBlk.transactions 0
            testBlk.header.gasLimit 0 testSt ∧
        cumulativeIsPrefixSum (Process testExt testCfg testBlk testSt).receipts ∧
        (Process testExt testCfg testBlk testSt).gasUsed =
          some (receiptsGasSum (Process testExt testCfg testBlk testSt).receipts) ∧
        ((∀ r ∈ (Process testExt testCfg testBlk testSt).receipts, 0 ≤ r.gasUsed) →
          ∀ i j (hi : i < (Process testExt testCfg testBlk testSt).receipts.length)
            (hj : j < (Process testExt testCfg testBlk testSt).receipts.length), i ≤ j →
            ((Process testExt testCfg testBlk testSt).receipts.get ⟨i, hi⟩).cumulativeGasUsed ≤
              ((Process testExt testCfg testBlk testSt).receipts.get
                ⟨j, hj⟩).cumulativeGasUsed)) :=
  ⟨by decide, C2_receipt_trail testExt testCfg testBlk testSt (by decide)⟩

/-- Witness for C4: a protected transaction with chain id 62 against a
configuration requiring 61. -/
theorem C4_chainid_mismatch_witness :
    testTxProt.isProtected = true ∧
      testCfg.getFeatureChainId testHeader.number = some 61 ∧
      testTxProt.chainId ≠ 61 ∧
      ((∀ (bh : Hash) (uncles : List Header) (txs : List Transaction) (i : Nat) (gp acc : Int)
          (st : StateDB) (rs : List Receipt) (ls : List Log),
        processTxs testExt testCfg bh testHeader uncles (testTxProt :: txs) i gp acc st rs ls =
          { receipts := [], logs := [], gasUsed := none, statedb := st,
            err := some (.invalidChainId testCfg.getChainID testTxProt.chainId) }) ∧
        ∀ (block : Block) (st : StateDB), block.header = testHeader →
          (∃ txs, block.transactions = testTxProt :: txs) →
          Process testExt testCfg block st =
            { receipts := [], logs := [], gasUsed := none, statedb := st,
              err := some (.invalidChainId testCfg.getChainID testTxProt.chainId) }) :=
  ⟨rfl, rfl, by decide,
    C4_chainid_mismatch testExt testCfg testHeader testTxProt 61 rfl rfl (by decide)⟩

/-- Witness for C5: a protected transaction against a configuration
with the rule absent. -/
theorem C5_rule_not_configured_witness :
    testTxProt.isProtected = true ∧
      testCfgNone.getFeatureChainId testHeader.number = none ∧
      ((∀ (bh : Hash) (uncles : List Header) (txs : List Transaction) (i : Nat) (gp acc : Int)
          (st : StateDB) (rs : List Receipt) (ls : List Log),
        processTxs testExt testCfgNone bh testHeader uncles (testTxProt :: txs) i gp acc st
            rs ls =
          { receipts := [], logs := [], gasUsed := none, statedb := st,
            err := some (.configNotSet testHeader.number testTxProt.chainId) }) ∧
        ∀ (block : Block) (st : StateDB), block.header = testHeader →
          (∃ txs, block.transactions = testTxProt :: txs) →
          Process testExt testCfgNone block st =
            { receipts := [], logs := [], gasUsed := none, statedb := st,
              err := some (.configNotSet testHeader.number testTxProt.chainId) }) :=
  ⟨rfl, rfl, C5_rule_not_configured testExt testCfgNone testHeader testTxProt rfl rfl⟩

/-- Witness for C6: the concrete empty block. -/
theorem C6_empty_block_witness :
    testBlkEmpty.transactions = [] ∧ testBlkEmpty.uncles = [] ∧
      ((Process testExt testCfg testBlkEmpty testSt).receipts = [] ∧
        (Process testExt testCfg testBlkEmpty testSt).logs = [] ∧
        (Process testExt testCfg testBlkEmpty testSt).gasUsed = some 0 ∧
        (Process testExt testCfg testBlkEmpty testSt).err = none ∧
        (Process testExt testCfg testBlkEmpty testSt).statedb.record = testSt.record ∧
        (Process testExt testCfg testBlkEmpty testSt).statedb.logs = testSt.logs ∧
        ∀ a, (Process testExt testCfg testBlkEmpty testSt).statedb.balances a =
          testSt.balances a +
            (if a = testBlkEmpty.header.coinbase then MaximumBlockReward else 0)) :=
  ⟨rfl, rfl, C6_empty_block testExt testCfg testBlkEmpty testSt rfl rfl⟩

/-- Witness for C7: a concrete contract-creation transaction applied
successfully. -/
theorem C7_created_contract_address_witness :
    ApplyTransaction testExt testCfg 100000 testSt testHeader testTxCreate 0 =
        .success testReceiptCreate [] 21000 21000 79000 testSt ∧
      testReceiptCreate.contractAddress =
        (if testTxCreate.recipient.isNone then
          some (testExt.createAddress testTxCreate.sender testTxCreate.nonce)
        else none) :=
  ⟨rfl,
    C7_created_contract_address testExt testCfg 100000 testSt testHeader testTxCreate 0
      testReceiptCreate [] 21000 21000 79000 testSt rfl⟩

/-- Witness for C8: two runs on the same concrete inputs. -/
theorem C8_deterministic_witness :
    testSt = testSt ∧
      Process testExt testCfg testBlk testSt = Process testExt testCfg testBlk testSt :=
  ⟨rfl, C8_deterministic testExt testCfg testBlk testSt testSt rfl⟩

/-- Witness for C9: a protected-transaction mismatch, where the
returned gas value is nil. -/
theorem C9_gas_nil_iff_chainid_error_witness :
    (Process testExt testCfg testBlkProt testSt).err =
        some (.invalidChainId testCfg.getChainID testTxProt.chainId) ∧
      (((Process testExt testCfg testBlkProt testSt).gasUsed = none ↔
        (∃ n c, ProcErr.invalidChainId testCfg.getChainID testTxProt.chainId =
          .configNotSet n c) ∨
          (∃ cur c, ProcErr.invalidChainId testCfg.getChainID testTxProt.chainId =
            .invalidChainId cur c)) ∧
        ∀ e, ProcErr.invalidChainId testCfg.getChainID testTxProt.chainId = .execError e →
          (Process testExt testCfg testBlkProt testSt).gasUsed =
            some (0 + (succeededGas testExt testCfg testBlkProt.hash testBlkProt.header
              testBlkProt.transactions 0 testBlkProt.header.gasLimit 0 testSt).sum)) :=
  ⟨by decide,
    C9_gas_nil_iff_chainid_error testExt testCfg testBlkProt testSt
      (.invalidChainId testCfg.getChainID testTxProt.chainId) (by decide)⟩

/-- Witness for C10: a concrete block number and the ecip-1017 era
length. -/
theorem C10_getBlockEra_mod_witness :
    (5000000 : Int) ≠ 0 ∧
      (getBlockEra 12345678 5000000 = Int.emod 12345678 5000000 + 1 ∧
        (∀ n2, Int.emod n2 5000000 = Int.emod 12345678 5000000 →
          getBlockEra n2 5000000 = getBlockEra 12345678 5000000) ∧
        ∀ k, getBlockEra (12345678 + 5000000 * k) 5000000 = getBlockEra 12345678 5000000) :=
  ⟨by decide, C10_getBlockEra_mod 12345678 5000000 (by decide)⟩

end Ellaism
